import Mathlib

/-
Verification of WTF::CheckedPtr (wtf/CheckedPtr.h): a nullable, non-owning
pointer whose pointee tracks how many outstanding checked pointers and
checked references target it.  The embedding below translates the storage
slot, the pointee counters, and every member function the claims touch.
The sibling type CheckedRef lives in wtf/CheckedRef.h, which is not part of
this excerpt; the few CheckedRef operations CheckedPtr.h calls (releasePtr
and the adopting constructor) are modelled from the specification and
marked as such.
-/

namespace CheckedPtrSpec

/-- Storage value of a checked pointer slot: the null encoding, a valid
pointer identified by its address, or the reserved hash-table-deleted
sentinel produced by PtrTraits.hashTableDeletedValue, which is distinct
from null and from every valid address. -/
inductive Ptr where
  | null : Ptr
  | valid : Nat → Ptr
  | deleted : Ptr
deriving DecidableEq

/-- The heap of outstanding-reference counters: for each pointee cell, the
integer count mutated by incrementPtrCount and decrementPtrCount. -/
def Counts : Type := Ptr → Nat

/-- A single counter mutation performed on a pointee: one call to
incrementPtrCount or to decrementPtrCount. -/
inductive Event where
  | inc : Ptr → Event
  | dec : Ptr → Event
deriving DecidableEq

/-- Effect of one counter mutation on the heap of counters. -/
def applyEvent (c : Counts) : Event → Counts
  | Event.inc p => fun q => if q = p then c q + 1 else c q
  | Event.dec p => fun q => if q = p then c q - 1 else c q

/-- Effect of a sequence of counter mutations, first event first. -/
def applyEvents (c : Counts) : List Event → Counts
  | [] => c
  | e :: es => applyEvents (applyEvent c e) es

/-- Counter mutations issued by CheckedPtr.refIfNotNull: increment the
pointee when the stored value is non-null, nothing otherwise. -/
def refEvents (p : Ptr) : List Event :=
  if p = Ptr.null then [] else [Event.inc p]

/-- Counter mutations issued by CheckedPtr.derefIfNotNull: decrement the
pointee when the stored value is non-null, nothing otherwise. -/
def derefEvents (p : Ptr) : List Event :=
  if p = Ptr.null then [] else [Event.dec p]

/-- CheckedPtr.refIfNotNull as a heap transformer. -/
def refIfNotNull (p : Ptr) (c : Counts) : Counts :=
  applyEvents c (refEvents p)

/-- CheckedPtr.derefIfNotNull as a heap transformer. -/
def derefIfNotNull (p : Ptr) (c : Counts) : Counts :=
  applyEvents c (derefEvents p)

/-- The CheckedPtr data model: a single storage slot m_ptr. -/
structure CheckedPtr where
  m_ptr : Ptr
deriving DecidableEq

/-- The CheckedRef data model (sibling non-null type): a single storage
slot that is non-null for every live, non-released instance. -/
structure CheckedRef where
  m_ptr : Ptr
deriving DecidableEq

/-- Default constructor CheckedPtr(): slot null, no counter touched. -/
def ctorEmpty : CheckedPtr := ⟨Ptr.null⟩

/-- Constructor CheckedPtr(nullptr): slot null, no counter touched. -/
def ctorNull : CheckedPtr := ⟨Ptr.null⟩

/-- Constructor CheckedPtr(T* ptr): stores the raw pointer and calls
refIfNotNull. -/
def ctorRaw (p : Ptr) (c : Counts) : CheckedPtr × Counts :=
  (⟨p⟩, refIfNotNull p c)

/-- Copy constructor CheckedPtr(const CheckedPtr&): copies the slot and
calls refIfNotNull. -/
def ctorCopy (other : CheckedPtr) (c : Counts) : CheckedPtr × Counts :=
  (⟨other.m_ptr⟩, refIfNotNull other.m_ptr c)

/-- Move constructor CheckedPtr(CheckedPtr&&): exchanges the source slot
with null and adopts it; no counter is touched.  Returns the new object,
the moved-from source, and the (unchanged) counters. -/
def ctorMove (other : CheckedPtr) (c : Counts) :
    CheckedPtr × CheckedPtr × Counts :=
  (⟨other.m_ptr⟩, ⟨Ptr.null⟩, c)

/-- Destructor of CheckedPtr: calls derefIfNotNull on the slot. -/
def dtor (p : CheckedPtr) (c : Counts) : Counts :=
  derefIfNotNull p.m_ptr c

/-- Constructor CheckedPtr(HashTableDeletedValueType): stores the reserved
deleted sentinel; no counter is touched. -/
def ctorDeleted (c : Counts) : CheckedPtr × Counts :=
  (⟨Ptr.deleted⟩, c)

/-- Modelled from the spec: CheckedRef.releasePtr, missing with
CheckedRef.h, detaches and returns the stored pointer without decrementing
any counter; the released instance must not be used again. -/
def releasePtr (r : CheckedRef) : Ptr := r.m_ptr

/-- Modelled from the spec: the adopting CheckedRef constructor
CheckedRef(T&, Adopt), missing with CheckedRef.h, takes over an existing
increment and therefore touches no counter. -/
def ctorRefAdopt (p : Ptr) (c : Counts) : CheckedRef × Counts :=
  (⟨p⟩, c)

/-- Modelled from the spec: the ordinary CheckedRef constructor from a raw
pointer, missing with CheckedRef.h, requires a non-null argument and
increments the pointee's counter. -/
def ctorRefRaw (p : Ptr) (c : Counts) : CheckedRef × Counts :=
  (⟨p⟩, refIfNotNull p c)

/-- Modelled from the spec: the CheckedRef destructor, missing with
CheckedRef.h, decrements the counter its instance charges. -/
def dtorRef (r : CheckedRef) (c : Counts) : Counts :=
  derefIfNotNull r.m_ptr c

/-- Constructor CheckedPtr(CheckedRef&) and its converting variant:
delegates to the raw-pointer constructor on the unwrapped slot, so the
pointee is incremented and the reference stays live. -/
def ctorFromRefCopy (r : CheckedRef) (c : Counts) : CheckedPtr × Counts :=
  ctorRaw r.m_ptr c

/-- Constructor CheckedPtr(CheckedRef&&) and its converting variant:
initialises the slot with other.releasePtr(), so no counter is touched and
the reference's existing increment is adopted. -/
def ctorFromRefMove (r : CheckedRef) (c : Counts) : CheckedPtr × Counts :=
  (⟨releasePtr r⟩, c)

/-- CheckedPtr.releaseNonNull: asserts the slot is non-null (modelled as
the none result when the assertion fires), exchanges the slot with null,
and hands the detached pointer to the adopting CheckedRef constructor; the
counters pass through untouched. -/
def releaseNonNull (p : CheckedPtr) (c : Counts) :
    Option (CheckedRef × CheckedPtr × Counts) :=
  if p.m_ptr = Ptr.null then none
  else some ((ctorRefAdopt p.m_ptr c).1, ⟨Ptr.null⟩, (ctorRefAdopt p.m_ptr c).2)

/-- CheckedPtr.get: unwraps and returns the slot; mutates neither the slot
nor any counter. -/
def get (p : CheckedPtr) (c : Counts) : Ptr × CheckedPtr × Counts :=
  (p.m_ptr, p, c)

/-- Explicit operator bool: true exactly when the stored value is
non-null; mutates nothing. -/
def opBool (p : CheckedPtr) (c : Counts) : Bool × CheckedPtr × Counts :=
  (if p.m_ptr = Ptr.null then false else true, p, c)

/-- Operator UnspecifiedBoolType: yields the distinguished member-function
pointer (modelled as some unit) exactly when the slot is non-null, and the
null member pointer (none) otherwise; mutates nothing.  Its result type is
a member-function pointer, not an integer, so it feeds boolean contexts
only. -/
def opUnspecifiedBool (p : CheckedPtr) (c : Counts) :
    Option Unit × CheckedPtr × Counts :=
  (if p.m_ptr = Ptr.null then none else some (), p, c)

/-- CheckedPtr.isHashTableDeletedValue: true exactly when the slot holds
the reserved deleted sentinel; mutates nothing. -/
def isHashTableDeletedValue (p : CheckedPtr) (c : Counts) :
    Bool × CheckedPtr × Counts :=
  (if p.m_ptr = Ptr.deleted then true else false, p, c)

/-- Operator* : asserts the slot is non-null (debug build; modelled as the
none result when the assertion fires) and returns the pointee; mutates
nothing. -/
def opStar (p : CheckedPtr) (c : Counts) :
    Option Ptr × CheckedPtr × Counts :=
  (if p.m_ptr = Ptr.null then none else some p.m_ptr, p, c)

/-- Operator-> : returns get() with no assertion and no null check;
mutates nothing. -/
def opArrow (p : CheckedPtr) (c : Counts) :
    Option Ptr × CheckedPtr × Counts :=
  (some p.m_ptr, p, c)

/-- Operator== against a raw pointer: compares the stored values; mutates
nothing. -/
def opEqRaw (p : CheckedPtr) (other : Ptr) (c : Counts) :
    Bool × CheckedPtr × Counts :=
  (if p.m_ptr = other then true else false, p, c)

/-- Operator== against another checked pointer (same or converting type):
compares the stored values; mutates nothing. -/
def opEqChecked (p other : CheckedPtr) (c : Counts) :
    Bool × CheckedPtr × Counts :=
  (if p.m_ptr = other.m_ptr then true else false, p, c)

/-- The right-hand side of an assignment to a CheckedPtr: nullptr, a raw
pointer, a copy of another checked pointer (same or converting type), or a
moved-from checked pointer (same or converting type).  The converting
overloads differ from the same-type ones only in the C++ type of the
source, which the untyped slot model does not distinguish. -/
inductive AssignSrc where
  | fromNull : AssignSrc
  | fromRaw : Ptr → AssignSrc
  | fromCopy : CheckedPtr → AssignSrc
  | fromMove : CheckedPtr → AssignSrc

/-- The value the destination slot holds after the assignment. -/
def assignNewPtr : AssignSrc → Ptr
  | AssignSrc.fromNull => Ptr.null
  | AssignSrc.fromRaw p => p
  | AssignSrc.fromCopy s => s.m_ptr
  | AssignSrc.fromMove s => s.m_ptr

/-- The counter mutations each assignment operator performs, in program
order, read off the operator bodies: operator=(nullptr) calls
derefIfNotNull directly; operator=(T*) and the copy assignments build a
temporary with the copying constructor (refIfNotNull), swap it into the
slot, and let its destructor run derefIfNotNull on the old value; the move
assignments build the temporary with the move constructor, which touches
no counter, so only the old value's decrement remains. -/
def assignTrace (dst : CheckedPtr) : AssignSrc → List Event
  | AssignSrc.fromNull => derefEvents dst.m_ptr
  | AssignSrc.fromRaw p => refEvents p ++ derefEvents dst.m_ptr
  | AssignSrc.fromCopy s => refEvents s.m_ptr ++ derefEvents dst.m_ptr
  | AssignSrc.fromMove _ => derefEvents dst.m_ptr

/-- Net effect of an assignment operator on the destination (for a source
object distinct from the destination) and on the counters. -/
def assignRun (dst : CheckedPtr) (s : AssignSrc) (c : Counts) :
    CheckedPtr × Counts :=
  (⟨assignNewPtr s⟩, applyEvents c (assignTrace dst s))

/-- Move assignment operator=(CheckedPtr&&) for a source object distinct
from the destination: the temporary move-constructed from the source nulls
the source and touches no counter; after the swap the temporary holds the
destination's old value, which its destructor releases.  Returns the new
destination, the moved-from source, and the counters. -/
def assignMove (dst src : CheckedPtr) (c : Counts) :
    CheckedPtr × CheckedPtr × Counts :=
  (⟨src.m_ptr⟩, ⟨Ptr.null⟩, derefIfNotNull dst.m_ptr c)

/-- Whether a counter mutation is an increment. -/
def Event.isInc : Event → Bool
  | Event.inc _ => true
  | Event.dec _ => false

/-- Number of live charges on the assigned pointee that the bookkeeping
invariant guarantees before an assignment whose old and new values share
one pointee: the destination always charges one, and a move source is a
live checked pointer charging one more. -/
def requiredCharges : AssignSrc → Nat
  | AssignSrc.fromMove _ => 2
  | _ => 1

/-- Number of occurrences of a slot value in a list of live slots. -/
def cnt (q : Ptr) : List Ptr → Nat
  | [] => 0
  | p :: l => (if p = q then 1 else 0) + cnt q l

/-- Slot value of the instance at an index; the null value when the index
is out of range. -/
def slotAt : List Ptr → Nat → Ptr
  | [], _ => Ptr.null
  | p :: _, 0 => p
  | _ :: l, Nat.succ i => slotAt l i

/-- Overwrite the slot of the instance at an index; unchanged when the
index is out of range. -/
def setIdx : List Ptr → Nat → Ptr → List Ptr
  | [], _, _ => []
  | _ :: l, 0, v => v :: l
  | p :: l, Nat.succ i, v => p :: setIdx l i v

/-- Remove the instance at an index; unchanged when the index is out of
range. -/
def eraseAt : List Ptr → Nat → List Ptr
  | [], _ => []
  | _ :: l, 0 => l
  | p :: l, Nat.succ i => p :: eraseAt l i

/-- A world of live instances: the slots of the live CheckedPtr objects,
the slots of the live charging CheckedRef objects, and the heap of
pointee counters. -/
structure World where
  ptrs : List Ptr
  refs : List Ptr
  counts : Counts

/-- One operation on the world of live instances, drawn from the
operations of the claims: construction (empty, from a raw pointer, by
copying or moving a live checked pointer, from a live checked reference by
copy or by consuming move), checked-reference construction from a raw
pointer, release into a checked reference, reset (assignment from
nullptr), copy and move assignment between live instances, and
destruction of a checked pointer or checked reference. -/
inductive Op where
  | mkEmpty : Op
  | mkRaw : Ptr → Op
  | mkCopy : Nat → Op
  | mkMove : Nat → Op
  | mkRefRaw : Ptr → Op
  | mkFromRefCopy : Nat → Op
  | mkFromRefMove : Nat → Op
  | releaseNN : Nat → Op
  | resetPtr : Nat → Op
  | asgCopy : Nat → Nat → Op
  | asgMove : Nat → Nat → Op
  | destroyPtr : Nat → Op
  | destroyRef : Nat → Op

/-- Effect of one operation on the world, each case translated from the
corresponding member function: new instances are pushed in front,
refIfNotNull and derefIfNotNull mutate the counters exactly where the
member bodies call them, and an operation naming a dead index is a no-op.
Move assignment follows the operator body's order: the temporary
move-constructed from the source nulls the source first, then the swap
leaves the destination's previous value (already null on self-move) in
the temporary, whose destruction releases it. -/
def step (w : World) : Op → World
  | Op.mkEmpty => ⟨Ptr.null :: w.ptrs, w.refs, w.counts⟩
  | Op.mkRaw p => ⟨p :: w.ptrs, w.refs, refIfNotNull p w.counts⟩
  | Op.mkCopy i =>
      if i < w.ptrs.length then
        ⟨slotAt w.ptrs i :: w.ptrs, w.refs, refIfNotNull (slotAt w.ptrs i) w.counts⟩
      else w
  | Op.mkMove i =>
      if i < w.ptrs.length then
        ⟨slotAt w.ptrs i :: setIdx w.ptrs i Ptr.null, w.refs, w.counts⟩
      else w
  | Op.mkRefRaw p => ⟨w.ptrs, p :: w.refs, refIfNotNull p w.counts⟩
  | Op.mkFromRefCopy j =>
      if j < w.refs.length then
        ⟨slotAt w.refs j :: w.ptrs, w.refs, refIfNotNull (slotAt w.refs j) w.counts⟩
      else w
  | Op.mkFromRefMove j =>
      if j < w.refs.length then
        ⟨slotAt w.refs j :: w.ptrs, eraseAt w.refs j, w.counts⟩
      else w
  | Op.releaseNN i =>
      if i < w.ptrs.length ∧ slotAt w.ptrs i ≠ Ptr.null then
        ⟨setIdx w.ptrs i Ptr.null, slotAt w.ptrs i :: w.refs, w.counts⟩
      else w
  | Op.resetPtr i =>
      if i < w.ptrs.length then
        ⟨setIdx w.ptrs i Ptr.null, w.refs, derefIfNotNull (slotAt w.ptrs i) w.counts⟩
      else w
  | Op.asgCopy i j =>
      if i < w.ptrs.length ∧ j < w.ptrs.length then
        ⟨setIdx w.ptrs i (slotAt w.ptrs j), w.refs,
          derefIfNotNull (slotAt w.ptrs i) (refIfNotNull (slotAt w.ptrs j) w.counts)⟩
      else w
  | Op.asgMove i j =>
      if i < w.ptrs.length ∧ j < w.ptrs.length then
        ⟨setIdx (setIdx w.ptrs j Ptr.null) i (slotAt w.ptrs j), w.refs,
          derefIfNotNull (slotAt (setIdx w.ptrs j Ptr.null) i) w.counts⟩
      else w
  | Op.destroyPtr i =>
      if i < w.ptrs.length then
        ⟨eraseAt w.ptrs i, w.refs, derefIfNotNull (slotAt w.ptrs i) w.counts⟩
      else w
  | Op.destroyRef j =>
      if j < w.refs.length then
        ⟨w.ptrs, eraseAt w.refs j, derefIfNotNull (slotAt w.refs j) w.counts⟩
      else w

/-- The initial world: no live instances, every counter zero. -/
def initWorld : World := ⟨[], [], fun _ => 0⟩

/-- Run a sequence of operations from the initial world. -/
def run (ops : List Op) : World := ops.foldl step initWorld

/-- The bookkeeping invariant: every non-null cell's counter equals the
number of live checked pointers plus live checked references whose slot
holds that cell. -/
def Inv (w : World) : Prop :=
  ∀ q, q ≠ Ptr.null → w.counts q = cnt q w.ptrs + cnt q w.refs

/-- HashTraits of CheckedPtr: the hash-table empty value is the null
pointer. -/
def emptyValue : Ptr := Ptr.null

/-- HashTraits.customDeleteBucket for CheckedPtr: moves the bucket's value
into a local (the bucket becomes null, no counter touched), overwrites the
bucket with the deleted sentinel, and lets the local's destructor release
the old value's increment. -/
def customDeleteBucket (value : CheckedPtr) (c : Counts) :
    CheckedPtr × Counts :=
  (⟨Ptr.deleted⟩, derefIfNotNull value.m_ptr c)

theorem refIfNotNull_apply_ne (p : Ptr) (c : Counts) (q : Ptr)
    (hq : q ≠ Ptr.null) :
    refIfNotNull p c q = c q + (if q = p then 1 else 0) := by
  by_cases hp : p = Ptr.null
  · have hqp : ¬ q = p := fun e => hq (e.trans hp)
    simp [refIfNotNull, refEvents, applyEvents, hp, hqp, hq]
  · by_cases hqp : q = p <;>
      simp [refIfNotNull, refEvents, applyEvents, applyEvent, hp, hqp]

theorem derefIfNotNull_apply_ne (p : Ptr) (c : Counts) (q : Ptr)
    (hq : q ≠ Ptr.null) :
    derefIfNotNull p c q = c q - (if q = p then 1 else 0) := by
  by_cases hp : p = Ptr.null
  · have hqp : ¬ q = p := fun e => hq (e.trans hp)
    simp [derefIfNotNull, derefEvents, applyEvents, hp, hqp, hq]
  · by_cases hqp : q = p <;>
      simp [derefIfNotNull, derefEvents, applyEvents, applyEvent, hp, hqp]

theorem cnt_cons (p q : Ptr) (l : List Ptr) :
    cnt q (p :: l) = cnt q l + (if q = p then 1 else 0) := by
  by_cases h : p = q
  · subst h; simp [cnt]; omega
  · have h' : ¬ q = p := fun e => h e.symm
    simp [cnt, h, h']

theorem length_setIdx (l : List Ptr) (i : Nat) (v : Ptr) :
    (setIdx l i v).length = l.length := by
  induction l generalizing i with
  | nil => rfl
  | cons p l ih =>
    cases i with
    | zero => rfl
    | succ i => simp [setIdx, ih]

theorem cnt_setIdx (l : List Ptr) (i : Nat) (v q : Ptr)
    (h : i < l.length) :
    cnt q (setIdx l i v) + (if q = slotAt l i then 1 else 0)
      = cnt q l + (if q = v then 1 else 0) := by
  induction l generalizing i with
  | nil => simp at h
  | cons p l ih =>
    cases i with
    | zero =>
      simp only [setIdx, slotAt, cnt_cons]
      split_ifs <;> omega
    | succ i =>
      have h' : i < l.length := by
        simpa [List.length_cons] using Nat.lt_of_succ_lt_succ h
      have hrec := ih i h'
      simp only [setIdx, slotAt, cnt_cons]
      split_ifs at hrec ⊢ <;> omega

theorem cnt_eraseAt (l : List Ptr) (i : Nat) (q : Ptr)
    (h : i < l.length) :
    cnt q (eraseAt l i) + (if q = slotAt l i then 1 else 0) = cnt q l := by
  induction l generalizing i with
  | nil => simp at h
  | cons p l ih =>
    cases i with
    | zero =>
      simp only [eraseAt, slotAt, cnt_cons]
    | succ i =>
      have h' : i < l.length := Nat.lt_of_succ_lt_succ h
      have hrec := ih i h'
      simp only [eraseAt, slotAt, cnt_cons]
      split_ifs at hrec ⊢ <;> omega

theorem cnt_slotAt_pos (l : List Ptr) (i : Nat) (q : Ptr)
    (h : i < l.length) (hs : q = slotAt l i) : 1 ≤ cnt q l := by
  induction l generalizing i with
  | nil => simp at h
  | cons p l ih =>
    cases i with
    | zero =>
      simp only [slotAt] at hs
      simp [cnt_cons, hs]
    | succ i =>
      have h' : i < l.length := Nat.lt_of_succ_lt_succ h
      have := ih i h' hs
      simp only [cnt_cons]
      omega

theorem step_preserves (w : World) (o : Op) (h : Inv w) : Inv (step w o) := by
  cases o with
  | mkEmpty =>
    intro q hq
    have hc := h q hq
    simp only [step, cnt_cons, if_neg hq]
    omega
  | mkRaw p =>
    intro q hq
    have hc := h q hq
    simp only [step, cnt_cons, refIfNotNull_apply_ne p w.counts q hq]
    omega
  | mkCopy i =>
    intro q hq
    have hc := h q hq
    simp only [step]
    split
    · simp only [cnt_cons, refIfNotNull_apply_ne (slotAt w.ptrs i) w.counts q hq]
      omega
    · exact hc
  | mkMove i =>
    intro q hq
    have hc := h q hq
    simp only [step]
    split
    · next hg =>
      have h1 := cnt_setIdx w.ptrs i Ptr.null q hg
      rw [if_neg hq] at h1
      simp only [cnt_cons]
      omega
    · exact hc
  | mkRefRaw p =>
    intro q hq
    have hc := h q hq
    simp only [step, cnt_cons, refIfNotNull_apply_ne p w.counts q hq]
    omega
  | mkFromRefCopy j =>
    intro q hq
    have hc := h q hq
    simp only [step]
    split
    · simp only [cnt_cons, refIfNotNull_apply_ne (slotAt w.refs j) w.counts q hq]
      omega
    · exact hc
  | mkFromRefMove j =>
    intro q hq
    have hc := h q hq
    simp only [step]
    split
    · next hg =>
      have h1 := cnt_eraseAt w.refs j q hg
      simp only [cnt_cons]
      omega
    · exact hc
  | releaseNN i =>
    intro q hq
    have hc := h q hq
    simp only [step]
    split
    · next hg =>
      have h1 := cnt_setIdx w.ptrs i Ptr.null q hg.1
      rw [if_neg hq] at h1
      simp only [cnt_cons]
      omega
    · exact hc
  | resetPtr i =>
    intro q hq
    have hc := h q hq
    simp only [step]
    split
    · next hg =>
      have h1 := cnt_setIdx w.ptrs i Ptr.null q hg
      rw [if_neg hq] at h1
      simp only [derefIfNotNull_apply_ne (slotAt w.ptrs i) w.counts q hq]
      omega
    · exact hc
  | asgCopy i j =>
    intro q hq
    have hc := h q hq
    simp only [step]
    split
    · next hg =>
      have h1 := cnt_setIdx w.ptrs i (slotAt w.ptrs j) q hg.1
      simp only [derefIfNotNull_apply_ne (slotAt w.ptrs i) _ q hq,
        refIfNotNull_apply_ne (slotAt w.ptrs j) w.counts q hq]
      split_ifs at h1 ⊢ <;> omega
    · exact hc
  | asgMove i j =>
    intro q hq
    have hc := h q hq
    simp only [step]
    split
    · next hg =>
      have hlen : i < (setIdx w.ptrs j Ptr.null).length := by
        rw [length_setIdx]; exact hg.1
      have h1 := cnt_setIdx w.ptrs j Ptr.null q hg.2
      rw [if_neg hq] at h1
      have h2 := cnt_setIdx (setIdx w.ptrs j Ptr.null) i (slotAt w.ptrs j) q hlen
      simp only [derefIfNotNull_apply_ne (slotAt (setIdx w.ptrs j Ptr.null) i)
        w.counts q hq]
      by_cases ho : q = slotAt (setIdx w.ptrs j Ptr.null) i
      · have h3 := cnt_slotAt_pos (setIdx w.ptrs j Ptr.null) i q hlen ho
        split_ifs at h1 h2 ⊢ <;> omega
      · split_ifs at h1 h2 ⊢ <;> omega
    · exact hc
  | destroyPtr i =>
    intro q hq
    have hc := h q hq
    simp only [step]
    split
    · next hg =>
      have h1 := cnt_eraseAt w.ptrs i q hg
      simp only [derefIfNotNull_apply_ne (slotAt w.ptrs i) w.counts q hq]
      split_ifs at h1 ⊢ <;> omega
    · exact hc
  | destroyRef j =>
    intro q hq
    have hc := h q hq
    simp only [step]
    split
    · next hg =>
      have h1 := cnt_eraseAt w.refs j q hg
      simp only [derefIfNotNull_apply_ne (slotAt w.refs j) w.counts q hq]
      split_ifs at h1 ⊢ <;> omega
    · exact hc

theorem foldl_preserves (l : List Op) (w : World) (hw : Inv w) :
    Inv (l.foldl step w) := by
  induction l generalizing w with
  | nil => exact hw
  | cons o l ih => exact ih (step w o) (step_preserves w o hw)

/-- C1: after any sequence of construct (empty, from raw pointer, from
checked pointer, from checked reference), copy, move, reset, and destroy
operations starting from the empty world, every non-null cell's
outstanding counter equals the number of currently-live non-null checked
pointers and checked references whose slot targets it, so every non-null
checked pointer accounts for exactly one increment on its pointee. -/
theorem spec_C1 (ops : List Op) (q : Ptr) (hq : q ≠ Ptr.null) :
    (run ops).counts q = cnt q (run ops).ptrs + cnt q (run ops).refs := by
  have hinit : Inv initWorld := fun _ _ => rfl
  exact foldl_preserves ops initWorld hinit q hq

/-- Witness for C1: a pointee at address zero targeted by a raw-pointer
construction followed by a copy has counter two, matching its two live
checked pointers. -/
theorem spec_C1_witness :
    (run [Op.mkRaw (Ptr.valid 0), Op.mkCopy 0]).counts (Ptr.valid 0)
      = cnt (Ptr.valid 0) (run [Op.mkRaw (Ptr.valid 0), Op.mkCopy 0]).ptrs
        + cnt (Ptr.valid 0) (run [Op.mkRaw (Ptr.valid 0), Op.mkCopy 0]).refs :=
  spec_C1 [Op.mkRaw (Ptr.valid 0), Op.mkCopy 0] (Ptr.valid 0) (by decide)

theorem applyEvents_append (c : Counts) (l1 l2 : List Event) :
    applyEvents c (l1 ++ l2) = applyEvents (applyEvents c l1) l2 := by
  induction l1 generalizing c with
  | nil => rfl
  | cons e l ih => simp [applyEvents, ih]

theorem prefix_cases {α : Type} (t : List α) (a : α) (rest : List α)
    (h : t <+: a :: rest) : t = [] ∨ ∃ t1, t = a :: t1 ∧ t1 <+: rest := by
  cases t with
  | nil => exact Or.inl rfl
  | cons x t1 =>
    obtain ⟨u, hu⟩ := h
    rw [List.cons_append] at hu
    injection hu with hx hrest
    exact Or.inr ⟨t1, by rw [hx], ⟨u, hrest⟩⟩

theorem prefix_nil_eq {α : Type} (t : List α) (h : t <+: []) : t = [] := by
  cases t with
  | nil => rfl
  | cons x t1 =>
    obtain ⟨u, hu⟩ := h
    simp at hu

theorem pos_applyEvents_incdec (c : Counts) (q : Ptr) (h1 : 1 ≤ c q) :
    ∀ t, t <+: [Event.inc q, Event.dec q] → 0 < applyEvents c t q := by
  intro t ht
  rcases prefix_cases t _ _ ht with rfl | ⟨t1, rfl, ht1⟩
  · simpa [applyEvents] using h1
  · rcases prefix_cases t1 _ _ ht1 with rfl | ⟨t2, rfl, ht2⟩
    · simp [applyEvents, applyEvent]
    · rw [prefix_nil_eq t2 ht2]
      simp [applyEvents, applyEvent]
      omega

theorem pos_applyEvents_dec (c : Counts) (q : Ptr) (h2 : 2 ≤ c q) :
    ∀ t, t <+: [Event.dec q] → 0 < applyEvents c t q := by
  intro t ht
  rcases prefix_cases t _ _ ht with rfl | ⟨t1, rfl, ht1⟩
  · simp [applyEvents]; omega
  · rw [prefix_nil_eq t1 ht1]
    simp [applyEvents, applyEvent]
    omega

/-- C2: every assignment operator yields the new value in the slot; its
counter-mutation trace performs all increments before all decrements, the
increments touch only the new pointee and the decrements only the old
pointee, and when old and new values share one non-null pointee that
carries the charges the bookkeeping invariant guarantees, no intermediate
point of the trace sees that pointee's counter at zero.  For assignment
from nullptr the operator releases the old value directly, which produces
the same counter-mutation trace as a copy-and-swap with a null
temporary. -/
theorem spec_C2 (dst : CheckedPtr) (s : AssignSrc) (c : Counts) :
    (assignRun dst s c).1 = ⟨assignNewPtr s⟩
    ∧ (assignTrace dst s
        = (assignTrace dst s).filter Event.isInc
          ++ (assignTrace dst s).filter (fun e => ! Event.isInc e))
    ∧ (∀ p, Event.inc p ∈ assignTrace dst s → p = assignNewPtr s)
    ∧ (∀ p, Event.dec p ∈ assignTrace dst s → p = dst.m_ptr)
    ∧ (∀ t, t <+: assignTrace dst s → assignNewPtr s = dst.m_ptr →
        dst.m_ptr ≠ Ptr.null → requiredCharges s ≤ c dst.m_ptr →
        0 < applyEvents c t dst.m_ptr) := by
  refine ⟨rfl, ?_, ?_, ?_, ?_⟩
  · cases s <;>
      simp only [assignTrace, refEvents, derefEvents] <;>
      split_ifs <;>
      simp [Event.isInc]
  · cases s <;>
      simp only [assignTrace, refEvents, derefEvents, assignNewPtr] <;>
      split_ifs <;>
      intro p hp <;>
      simp_all
  · cases s <;>
      simp only [assignTrace, refEvents, derefEvents] <;>
      split_ifs <;>
      intro p hp <;>
      simp_all
  · cases s with
    | fromNull =>
      intro t ht he hn hr
      exact absurd he.symm hn
    | fromRaw p =>
      intro t ht he hn hr
      simp only [assignNewPtr] at he
      simp only [requiredCharges] at hr
      rw [show assignTrace dst (AssignSrc.fromRaw p)
            = [Event.inc dst.m_ptr, Event.dec dst.m_ptr] by
          simp [assignTrace, refEvents, derefEvents, he, hn]] at ht
      exact pos_applyEvents_incdec c dst.m_ptr hr t ht
    | fromCopy s =>
      intro t ht he hn hr
      simp only [assignNewPtr] at he
      simp only [requiredCharges] at hr
      rw [show assignTrace dst (AssignSrc.fromCopy s)
            = [Event.inc dst.m_ptr, Event.dec dst.m_ptr] by
          simp [assignTrace, refEvents, derefEvents, he, hn]] at ht
      exact pos_applyEvents_incdec c dst.m_ptr hr t ht
    | fromMove s =>
      intro t ht he hn hr
      simp only [requiredCharges] at hr
      rw [show assignTrace dst (AssignSrc.fromMove s)
            = [Event.dec dst.m_ptr] by
          simp [assignTrace, derefEvents, hn]] at ht
      exact pos_applyEvents_dec c dst.m_ptr hr t ht

/-- Witness for C2: assigning a copy of a second checked pointer on the
same pointee into a destination whose counter is one keeps every
intermediate counter value positive along the inc-then-dec trace. -/
theorem spec_C2_witness :
    0 < applyEvents (fun _ => 1) [Event.inc (Ptr.valid 0)] (Ptr.valid 0) :=
  (spec_C2 ⟨Ptr.valid 0⟩ (AssignSrc.fromCopy ⟨Ptr.valid 0⟩)
      (fun _ => 1)).2.2.2.2
    [Event.inc (Ptr.valid 0)]
    ⟨[Event.dec (Ptr.valid 0)], by simp [assignTrace, refEvents, derefEvents]⟩
    rfl (by decide) (by decide)

/-- Counterexample to C3 as stated: when the destination of a move
assignment already targets the moved pointee (address zero, counter two
for its two live checked pointers), the move assignment releases the
destination's previous value and the pointee's counter drops to one, so
move-assigning does change the pointee's outstanding count. -/
theorem spec_C3_counterexample :
    (assignMove ⟨Ptr.valid 0⟩ ⟨Ptr.valid 0⟩
        (fun q => if q = Ptr.valid 0 then 2 else 0)).2.2 (Ptr.valid 0)
      ≠ (fun q => if q = Ptr.valid 0 then 2 else 0) (Ptr.valid 0) := by
  decide

/-- C3 amended: move construction transfers the slot to the destination,
nulls the source, and changes no counter; move assignment transfers the
slot, nulls the source, and changes no counter other than one decrement
of the destination's previous non-null pointee (no change at all when the
destination was null). -/
theorem spec_C3_amended (src dst : CheckedPtr) (c : Counts) :
    ctorMove src c = (⟨src.m_ptr⟩, ⟨Ptr.null⟩, c)
    ∧ (assignMove dst src c).1 = ⟨src.m_ptr⟩
    ∧ (assignMove dst src c).2.1 = ⟨Ptr.null⟩
    ∧ (assignMove dst src c).2.2 = derefIfNotNull dst.m_ptr c
    ∧ (∀ q, q ≠ dst.m_ptr → (assignMove dst src c).2.2 q = c q)
    ∧ (dst.m_ptr = Ptr.null → (assignMove dst src c).2.2 = c) := by
  refine ⟨rfl, rfl, rfl, rfl, ?_, ?_⟩
  · intro q hqd
    by_cases hd : dst.m_ptr = Ptr.null
    · simp [assignMove, derefIfNotNull, derefEvents, hd, applyEvents]
    · simp [assignMove, derefIfNotNull, derefEvents, hd, applyEvents,
        applyEvent, hqd]
  · intro hd
    simp [assignMove, derefIfNotNull, derefEvents, hd, applyEvents]

/-- Witness for C3 amended: move-assigning over a destination that
targeted a different address leaves the counter of an unrelated cell
untouched. -/
theorem spec_C3_amended_witness :
    (assignMove ⟨Ptr.valid 1⟩ ⟨Ptr.valid 0⟩ (fun _ => 1)).2.2 (Ptr.valid 5)
      = (fun _ => (1 : Nat)) (Ptr.valid 5) :=
  (spec_C3_amended ⟨Ptr.valid 0⟩ ⟨Ptr.valid 1⟩ (fun _ => 1)).2.2.2.2.1
    (Ptr.valid 5) (by decide)

/-- C4: releasing a non-null checked pointer into a checked reference and
consuming that reference to construct a new checked pointer changes no
counter end to end, and the new checked pointer holds the pointer the
original held. -/
theorem spec_C4 (p : CheckedPtr) (c : Counts) (h : p.m_ptr ≠ Ptr.null) :
    releaseNonNull p c = some (⟨p.m_ptr⟩, ⟨Ptr.null⟩, c)
    ∧ ctorFromRefMove ⟨p.m_ptr⟩ c = (⟨p.m_ptr⟩, c) := by
  exact ⟨by simp [releaseNonNull, ctorRefAdopt, h], rfl⟩

/-- Witness for C4: the round trip on a checked pointer to address three
with every counter one returns the same pointer and the same counters. -/
theorem spec_C4_witness :
    releaseNonNull ⟨Ptr.valid 3⟩ (fun _ => 1)
        = some (⟨Ptr.valid 3⟩, ⟨Ptr.null⟩, fun _ => 1)
    ∧ ctorFromRefMove ⟨Ptr.valid 3⟩ (fun _ => 1)
        = (⟨Ptr.valid 3⟩, fun _ => 1) :=
  spec_C4 ⟨Ptr.valid 3⟩ (fun _ => 1) (by decide)

/-- C5: assigning a checked pointer to itself, null or not, changes
neither the slot nor any counter. -/
theorem spec_C5 (dst : CheckedPtr) (c : Counts) :
    assignRun dst (AssignSrc.fromCopy dst) c = (dst, c) := by
  obtain ⟨p⟩ := dst
  simp only [assignRun, assignNewPtr, assignTrace, Prod.mk.injEq]
  refine ⟨trivial, ?_⟩
  funext q
  by_cases hp : p = Ptr.null
  · simp [refEvents, derefEvents, hp, applyEvents]
  · by_cases hqp : q = p <;>
      simp [refEvents, derefEvents, hp, hqp, applyEvents, applyEvent]

/-- C6: releaseNonNull fails its assertion exactly on a null slot; on a
non-null slot it hands the pointer to the adopting reference constructor
with no counter mutation and resets the slot to null. -/
theorem spec_C6 (p : CheckedPtr) (c : Counts) :
    (p.m_ptr = Ptr.null → releaseNonNull p c = none)
    ∧ (p.m_ptr ≠ Ptr.null →
        releaseNonNull p c = some (⟨p.m_ptr⟩, ⟨Ptr.null⟩, c)) := by
  constructor <;> intro h <;> simp [releaseNonNull, ctorRefAdopt, h]

/-- Witness for C6: releaseNonNull on a null checked pointer fires the
assertion, and on a pointer to address two it detaches with untouched
counters. -/
theorem spec_C6_witness :
    releaseNonNull ⟨Ptr.null⟩ (fun _ => 0) = none
    ∧ releaseNonNull ⟨Ptr.valid 2⟩ (fun _ => 1)
        = some (⟨Ptr.valid 2⟩, ⟨Ptr.null⟩, fun _ => 1) :=
  ⟨(spec_C6 ⟨Ptr.null⟩ (fun _ => 0)).1 rfl,
    (spec_C6 ⟨Ptr.valid 2⟩ (fun _ => 1)).2 (by decide)⟩

/-- C7: constructing from the hash-table-deleted sentinel stores an
encoding distinct from null and from every valid address and touches no
counter; the hash-table empty value is null; and customDeleteBucket
overwrites the bucket with the deleted sentinel after releasing the
contained value's increment, exactly one decrement of the pointee and no
other counter change. -/
theorem spec_C7 (value : CheckedPtr) (c : Counts) :
    (ctorDeleted c).1.m_ptr = Ptr.deleted
    ∧ (ctorDeleted c).2 = c
    ∧ Ptr.deleted ≠ Ptr.null
    ∧ (∀ a : Nat, Ptr.deleted ≠ Ptr.valid a)
    ∧ emptyValue = Ptr.null
    ∧ (customDeleteBucket value c).1.m_ptr = Ptr.deleted
    ∧ (value.m_ptr ≠ Ptr.null → 1 ≤ c value.m_ptr →
        (customDeleteBucket value c).2 value.m_ptr + 1 = c value.m_ptr)
    ∧ (∀ q, q ≠ value.m_ptr → (customDeleteBucket value c).2 q = c q) := by
  refine ⟨rfl, rfl, by decide, ?_, rfl, rfl, ?_, ?_⟩
  · intro a h
    exact nomatch h
  · intro hv hc
    simp [customDeleteBucket, derefIfNotNull, derefEvents, hv, applyEvents,
      applyEvent]
    omega
  · intro q hqv
    by_cases hv : value.m_ptr = Ptr.null
    · simp [customDeleteBucket, derefIfNotNull, derefEvents, hv, applyEvents]
    · simp [customDeleteBucket, derefIfNotNull, derefEvents, hv, applyEvents,
        applyEvent, hqv]

/-- Witness for C7: deleting a bucket holding address four with counter
one leaves the counter zero at that cell and one elsewhere, with the
bucket overwritten by the deleted sentinel. -/
theorem spec_C7_witness :
    (customDeleteBucket ⟨Ptr.valid 4⟩ (fun _ => 1)).2 (Ptr.valid 4) + 1
        = (fun _ => (1 : Nat)) (Ptr.valid 4)
    ∧ (customDeleteBucket ⟨Ptr.valid 4⟩ (fun _ => 1)).2 (Ptr.valid 9)
        = (fun _ => (1 : Nat)) (Ptr.valid 9) :=
  ⟨(spec_C7 ⟨Ptr.valid 4⟩ (fun _ => 1)).2.2.2.2.2.2.1 (by decide) (by decide),
    (spec_C7 ⟨Ptr.valid 4⟩ (fun _ => 1)).2.2.2.2.2.2.2 (Ptr.valid 9)
      (by decide)⟩

/-- Counterexample to C8 as stated: on a null slot, operator-> does not
assert; it returns the stored null pointer unchecked, while operator*
does fire its debug assertion. -/
theorem spec_C8_counterexample :
    (opArrow ⟨Ptr.null⟩ (fun _ => 0)).1 = some Ptr.null
    ∧ (opArrow ⟨Ptr.null⟩ (fun _ => 0)).1 ≠ none
    ∧ (opStar ⟨Ptr.null⟩ (fun _ => 0)).1 = none := by
  refine ⟨rfl, by simp [opArrow], rfl⟩

/-- C8 amended: dereference and member access require a non-null slot;
operator* backs the precondition with a debug assertion that fires
exactly on a null slot, while operator-> performs no check and returns
the stored pointer; under the precondition both return the pointee's
address and neither modifies the slot or any counter. -/
theorem spec_C8_amended (p : CheckedPtr) (c : Counts) :
    (p.m_ptr = Ptr.null → (opStar p c).1 = none)
    ∧ (p.m_ptr ≠ Ptr.null → (opStar p c).1 = some p.m_ptr)
    ∧ (opArrow p c).1 = some p.m_ptr
    ∧ (opStar p c).2.1 = p ∧ (opStar p c).2.2 = c
    ∧ (opArrow p c).2.1 = p ∧ (opArrow p c).2.2 = c := by
  refine ⟨?_, ?_, rfl, rfl, rfl, rfl, rfl⟩ <;>
    intro h <;> simp [opStar, h]

/-- Witness for C8 amended: operator* on a checked pointer to address
seven returns the pointee. -/
theorem spec_C8_amended_witness :
    (opStar ⟨Ptr.valid 7⟩ (fun _ => 1)).1 = some (Ptr.valid 7) :=
  (spec_C8_amended ⟨Ptr.valid 7⟩ (fun _ => 1)).2.1 (by decide)

/-- C9: the boolean conversions of a checked pointer are true exactly on
a non-null slot: the explicit bool conversion returns true iff the slot
is non-null, and the UnspecifiedBoolType conversion returns a non-null
member-function pointer iff the slot is non-null; its result is a
member-function pointer rather than an integer. -/
theorem spec_C9 (p : CheckedPtr) (c : Counts) :
    ((opBool p c).1 = true ↔ p.m_ptr ≠ Ptr.null)
    ∧ ((opUnspecifiedBool p c).1 ≠ none ↔ p.m_ptr ≠ Ptr.null) := by
  by_cases h : p.m_ptr = Ptr.null <;>
    simp [opBool, opUnspecifiedBool, h]

/-- Witness for C9: the checked pointer to address zero converts to
true. -/
theorem spec_C9_witness :
    (opBool ⟨Ptr.valid 0⟩ (fun _ => 0)).1 = true :=
  (spec_C9 ⟨Ptr.valid 0⟩ (fun _ => 0)).1.mpr (by decide)

/-- C10: the observers get, bool conversion, isHashTableDeletedValue, and
equality against a raw pointer or another checked pointer leave the slot
and every counter unchanged, and the equality operators compare the
stored addresses. -/
theorem spec_C10 (p other : CheckedPtr) (r : Ptr) (c : Counts) :
    ((opEqRaw p r c).1 = true ↔ p.m_ptr = r)
    ∧ ((opEqChecked p other c).1 = true ↔ p.m_ptr = other.m_ptr)
    ∧ get p c = (p.m_ptr, p, c)
    ∧ (opBool p c).2.1 = p ∧ (opBool p c).2.2 = c
    ∧ (isHashTableDeletedValue p c).2.1 = p
    ∧ (isHashTableDeletedValue p c).2.2 = c
    ∧ (opEqRaw p r c).2.1 = p ∧ (opEqRaw p r c).2.2 = c
    ∧ (opEqChecked p other c).2.1 = p
    ∧ (opEqChecked p other c).2.2 = c := by
  refine ⟨?_, ?_, rfl, rfl, rfl, rfl, rfl, rfl, rfl, rfl, rfl⟩
  · by_cases h : p.m_ptr = r <;> simp [opEqRaw, h]
  · by_cases h : p.m_ptr = other.m_ptr <;> simp [opEqChecked, h]

/-- Witness for C10: equality against the matching raw pointer returns
true at address six. -/
theorem spec_C10_witness :
    (opEqRaw ⟨Ptr.valid 6⟩ (Ptr.valid 6) (fun _ => 0)).1 = true :=
  (spec_C10 ⟨Ptr.valid 6⟩ ⟨Ptr.null⟩ (Ptr.valid 6) (fun _ => 0)).1.mpr rfl

end CheckedPtrSpec
